import Mathlib

/-
Verification development for the XML event-stream decoder (src/lib.rs) and
the stubbed encoder (src/serialize.rs).

The decoder is shallowly embedded: the pull-based event reader is modelled
as a list of already-normalized `XmlEvent`s (the xml-rs reader with the
configuration built in `new_from_reader` — whitespace trimmed, CDATA and
whitespace folded to `Characters`, comments dropped — is the external
collaborator, so its output is the input of the model).  Every `&mut self`
method of `Deserializer<R>` becomes a function from a `Deserializer` state
to a result that carries the successor state; a Rust panic (for example
the unguarded `self.depth -= 1` underflowing a `usize` in a debug build)
becomes the state-less `Res.panics` outcome.

Visitors (`serde::de::Visitor`) never touch the cursor except through the
deserializer handle they are given, so each `deserialize_*` entry point is
parameterized by the visitor callback it actually invokes: a pure
`String → Except Error α` for text visitors, a stateful
`Deserializer → Res α` for callbacks that recurse into the deserializer.

`error.rs`, `map.rs`, `seq.rs` and `var.rs` are not under src/; the few
places where their behavior is needed are modelled from the spec and
marked `Modelled from the spec:` in their doc comments.
-/

/-- Qualified XML name, as xml-rs `OwnedName`: a local name plus an
optional namespace; equality is namespace-aware (derived structural
equality), not raw-string identity. -/
structure OwnedName where
  local_name : String
  ns : Option String
deriving DecidableEq, Repr

/-- One attribute of a `StartElement` event: a qualified name and a text
value (xml-rs `OwnedAttribute`). -/
structure OwnedAttribute where
  name : OwnedName
  value : String
deriving DecidableEq, Repr

/-- The xml-rs reader events reaching the deserializer.  With the parser
configuration of `new_from_reader`, whitespace and CDATA runs are already
folded into `Characters` events, so those variants do not appear. -/
inductive XmlEvent where
  | StartDocument
  | EndDocument
  | ProcessingInstruction
  | Comment (text : String)
  | StartElement (name : OwnedName) (attributes : List OwnedAttribute)
  | EndElement (name : OwnedName)
  | Characters (text : String)
deriving DecidableEq, Repr

/-- Events that `inner_next` silently skips (the first match arm of the
`loop` in `inner_next`). -/
def XmlEvent.skipped : XmlEvent → Bool
  | .StartDocument => true
  | .EndDocument => true
  | .ProcessingInstruction => true
  | .Comment _ => true
  | _ => false

/-- Returns `true` exactly for the two events that change the nesting depth. -/
def XmlEvent.structural : XmlEvent → Bool
  | .StartElement _ _ => true
  | .EndElement _ => true
  | _ => false

/-- A printable tag for the kind of an event, used in mismatch errors. -/
def eventKind : XmlEvent → String
  | .StartDocument => "StartDocument"
  | .EndDocument => "EndDocument"
  | .ProcessingInstruction => "ProcessingInstruction"
  | .Comment _ => "Comment"
  | .StartElement _ _ => "StartElement"
  | .EndElement _ => "EndElement"
  | .Characters _ => "Characters"

/-- Message of the Rust debug-build panic on `usize` subtraction
underflow. -/
def underflowMsg : String := "attempt to subtract with overflow"

/-- Message of the `unimplemented!()` panic. -/
def notImplementedMsg : String := "not implemented"

/-- Message for the debug-guarded internal invariant of
`read_inner_value` and the sequence visitor. -/
def internalErrMsg : String := "internal error: expected StartElement"

/-- Message for pulling from an exhausted reader. -/
def endOfInputMsg : String := "unexpected end of input"

/-- Token-kind tags used in mismatch errors. -/
def kindStartElement : String := "StartElement"

/-- Token-kind tag for end tags, used in mismatch errors. -/
def kindEndElement : String := "EndElement"

/-- Token-kind tag for text runs, used in mismatch errors. -/
def kindCharacters : String := "Characters"

/-- The magic catch-all field name recognized by `deserialize_struct`. -/
def valueFieldName : String := "$value"

/-- The error type of the decoder (`error::Error`).  `SyntaxError` and `Custom`
are used directly by lib.rs.  `MismatchError` carries the expected and the
found token kinds; it is Modelled from the spec: error.rs (which defines
the `expect!` macro) is not under src/, and the spec says an unexpected
event kind at a position requiring a specific one is a MismatchError. -/
inductive Error where
  | SyntaxError (msg : String)
  | Custom (msg : String)
  | MismatchError (expected found : String)
deriving DecidableEq, Repr

/-- The error produced when the underlying reader is exhausted, i.e. the
event list is empty.  Modelled from the spec: malformed / truncated input
from the tokenizer is a fatal SyntaxError. -/
def endOfStreamErr : Error := Error.SyntaxError endOfInputMsg

/-- The message of the `Error::Custom` built in `expect_end_element` when
the name of the end tag does not match the name of the start tag (the
format string of lib.rs line 120, with the contraction spelled out). -/
def mismatchMsg (found expected : OwnedName) : String :=
  "End tag </" ++ found.local_name ++ "> did not match the start tag <" ++
    expected.local_name ++ ">"

/-- The deserializer state (`Deserializer<R>`): the nesting-depth counter,
the not-yet-pulled remainder of the event stream of the reader, the
lookahead buffer, and the one-shot map-value flag. -/
structure Deserializer where
  depth : Nat
  events : List XmlEvent
  peeked : Option XmlEvent
  is_map_value : Bool
deriving DecidableEq, Repr

/-- Result of one `&mut self` method call: success and failure both return
the updated state (`&mut` borrows survive an `Err`), while a Rust panic
aborts with no state. -/
inductive Res (α : Type) where
  | ok (a : α) (d : Deserializer)
  | err (e : Error) (d : Deserializer)
  | panics (msg : String)
deriving DecidableEq, Repr

/-- Returns `true` iff the call returned `Ok`. -/
def isOk {α : Type} : Res α → Bool
  | .ok _ _ => true
  | _ => false

/-- The deserializer state after the call, when the call did not panic. -/
def resultState {α : Type} : Res α → Option Deserializer
  | .ok _ d => some d
  | .err _ d => some d
  | .panics _ => none

/-- The semantically relevant events still ahead of the cursor: the
lookahead buffer (if filled) followed by the non-skipped part of the
unread stream. -/
def semEvents (d : Deserializer) : List XmlEvent :=
  (match d.peeked with | some e => [e] | none => []) ++
    d.events.filter (fun e => !e.skipped)

/-- Termination measure for the driver loops: unread events plus the
lookahead buffer. -/
def dmeasure (d : Deserializer) : Nat :=
  d.events.length + (match d.peeked with | some _ => 1 | none => 0)

/-- Pull events off the raw stream until a semantically relevant one shows
up (the `loop` of `inner_next`, acting on the stream of the reader). -/
def innerNextList : List XmlEvent → Option (XmlEvent × List XmlEvent)
  | [] => none
  | e :: es => if e.skipped then innerNextList es else some (e, es)

/-- Constructor `Deserializer::new` — fresh state over an event stream: depth 0, no
lookahead, map-value flag unset. -/
def Deserializer.new (events : List XmlEvent) : Deserializer :=
  { depth := 0, events := events, peeked := none, is_map_value := false }

/-- Constructor `Deserializer::new_from_reader` — same as `new`; the parser
configuration it installs is the normalization already assumed of the
event list of the model. -/
def Deserializer.new_from_reader (events : List XmlEvent) : Deserializer :=
  Deserializer.new events

/-- Method `inner_next`: next semantically relevant event from the reader,
skipping document boundaries, processing instructions and comments. -/
def Deserializer.inner_next (d : Deserializer) : Res XmlEvent :=
  match innerNextList d.events with
  | none => .err endOfStreamErr { d with events := [] }
  | some (e, es) => .ok e { d with events := es }

/-- Method `peek`: return the next semantically relevant event without consuming
it, caching it in the lookahead buffer. -/
def Deserializer.peek (d : Deserializer) : Res XmlEvent :=
  match d.peeked with
  | some e => .ok e d
  | none =>
    match innerNextList d.events with
    | none => .err endOfStreamErr { d with events := [] }
    | some (e, es) => .ok e { d with events := es, peeked := some e }

/-- Method `next`: consume the cached or fresh next event and update `depth`.
The `self.depth -= 1` on `EndElement` has no zero guard; `usize`
subtraction underflow (a debug-build panic in Rust) is modelled as
`Res.panics`. -/
def Deserializer.next (d : Deserializer) : Res XmlEvent :=
  match (match d.peeked with
         | some e => Res.ok e { d with peeked := none }
         | none => d.inner_next) with
  | .ok e d1 =>
    match e with
    | .StartElement _ _ => .ok e { d1 with depth := d1.depth + 1 }
    | .EndElement _ =>
      if d1.depth = 0 then .panics underflowMsg
      else .ok e { d1 with depth := d1.depth - 1 }
    | _ => .ok e d1
  | r => r

/-- Method `set_map_value`. -/
def Deserializer.set_map_value (d : Deserializer) : Deserializer :=
  { d with is_map_value := true }

/-- Method `unset_map_value`: returns the previous flag value and clears it
(`mem::replace(&mut self.is_map_value, false)`). -/
def Deserializer.unset_map_value (d : Deserializer) : Bool × Deserializer :=
  (d.is_map_value, { d with is_map_value := false })

/-- Method `expect_end_element`: consume one event; succeed on an `EndElement`
whose name equals `start_name`, fail with the `Error::Custom` mismatch
message on an `EndElement` with another name, and fail with the `expect!`
mismatch error on any other event kind. -/
def Deserializer.expect_end_element (d : Deserializer) (start_name : OwnedName) :
    Res Unit :=
  match d.next with
  | .ok (.EndElement name) d1 =>
    if name = start_name then .ok () d1
    else .err (.Custom (mismatchMsg name start_name)) d1
  | .ok e d1 => .err (.MismatchError kindEndElement (eventKind e)) d1
  | .err e d1 => .err e d1
  | .panics msg => .panics msg

/-- Method `read_inner_value`: take the one-shot map-value flag; when it was set,
consume the wrapping `StartElement`, run `f`, then require the matching
end tag; when it was unset, run `f` directly.  The `debug_expect!` arm
(anything but `Ok(StartElement)` after the flag was set) is Modelled from
the spec: error.rs is not under src/; it guards an internal invariant and
is modelled as a panic. -/
def Deserializer.read_inner_value {α : Type} (d : Deserializer)
    (f : Deserializer → Res α) : Res α :=
  match d.unset_map_value with
  | (was, d0) =>
    if was then
      match d0.next with
      | .ok (.StartElement name _) d1 =>
        match f d1 with
        | .ok v d2 =>
          match d2.expect_end_element name with
          | .ok _ d3 => .ok v d3
          | .err e d3 => .err e d3
          | .panics msg => .panics msg
        | .err e d2 => .err e d2
        | .panics msg => .panics msg
      | _ => .panics internalErrMsg
    else f d0

namespace Deserializer

/-- The closure passed to `read_inner_value` by `deserialize_string`:
an `EndElement` at the current position yields `visit_str("")` without
consuming it; otherwise exactly one event is consumed and must be a
`Characters` event, whose text goes to `visit_string`.  `vis` is the
text callback of the visitor. -/
def read_string_inner {α : Type} (vis : String → Except Error α)
    (d : Deserializer) : Res α :=
  match d.peek with
  | .ok (.EndElement _) d1 =>
    (match vis ("") with
     | .ok a => .ok a d1
     | .error e => .err e d1)
  | .ok _ d1 =>
    (match d1.next with
     | .ok (.Characters s) d2 =>
       (match vis s with
        | .ok a => .ok a d2
        | .error e => .err e d2)
     | .ok e d2 => .err (.MismatchError kindCharacters (eventKind e)) d2
     | .err e d2 => .err e d2
     | .panics msg => .panics msg)
  | .err e d1 => .err e d1
  | .panics msg => .panics msg

/-- Method `deserialize_string`. -/
def deserialize_string {α : Type} (vis : String → Except Error α)
    (d : Deserializer) : Res α :=
  d.read_inner_value (read_string_inner vis)

/-- Method `deserialize_u64` — forwards to `deserialize_string`; numeric parsing
of the text happens inside the visitor. -/
def deserialize_u64 {α : Type} (vis : String → Except Error α)
    (d : Deserializer) : Res α := deserialize_string vis d

/-- Method `deserialize_u32` — forwards to `deserialize_string`. -/
def deserialize_u32 {α : Type} (vis : String → Except Error α)
    (d : Deserializer) : Res α := deserialize_string vis d

/-- Method `deserialize_u16` — forwards to `deserialize_string`. -/
def deserialize_u16 {α : Type} (vis : String → Except Error α)
    (d : Deserializer) : Res α := deserialize_string vis d

/-- Method `deserialize_u8` — forwards to `deserialize_string`. -/
def deserialize_u8 {α : Type} (vis : String → Except Error α)
    (d : Deserializer) : Res α := deserialize_string vis d

/-- Method `deserialize_i64` — forwards to `deserialize_string`. -/
def deserialize_i64 {α : Type} (vis : String → Except Error α)
    (d : Deserializer) : Res α := deserialize_string vis d

/-- Method `deserialize_i32` — forwards to `deserialize_string`. -/
def deserialize_i32 {α : Type} (vis : String → Except Error α)
    (d : Deserializer) : Res α := deserialize_string vis d

/-- Method `deserialize_i16` — forwards to `deserialize_string`. -/
def deserialize_i16 {α : Type} (vis : String → Except Error α)
    (d : Deserializer) : Res α := deserialize_string vis d

/-- Method `deserialize_i8` — forwards to `deserialize_string`. -/
def deserialize_i8 {α : Type} (vis : String → Except Error α)
    (d : Deserializer) : Res α := deserialize_string vis d

/-- Method `deserialize_f64` — forwards to `deserialize_string`. -/
def deserialize_f64 {α : Type} (vis : String → Except Error α)
    (d : Deserializer) : Res α := deserialize_string vis d

/-- Method `deserialize_f32` — forwards to `deserialize_string`. -/
def deserialize_f32 {α : Type} (vis : String → Except Error α)
    (d : Deserializer) : Res α := deserialize_string vis d

/-- Method `deserialize_bool` — forwards to `deserialize_string`. -/
def deserialize_bool {α : Type} (vis : String → Except Error α)
    (d : Deserializer) : Res α := deserialize_string vis d

/-- Method `deserialize_char` — forwards to `deserialize_string`. -/
def deserialize_char {α : Type} (vis : String → Except Error α)
    (d : Deserializer) : Res α := deserialize_string vis d

/-- Method `deserialize_str` — forwards to `deserialize_string`. -/
def deserialize_str {α : Type} (vis : String → Except Error α)
    (d : Deserializer) : Res α := deserialize_string vis d

/-- Method `deserialize_bytes` — forwards to `deserialize_string`. -/
def deserialize_bytes {α : Type} (vis : String → Except Error α)
    (d : Deserializer) : Res α := deserialize_string vis d

/-- Method `deserialize_byte_buf` — forwards to `deserialize_string`. -/
def deserialize_byte_buf {α : Type} (vis : String → Except Error α)
    (d : Deserializer) : Res α := deserialize_string vis d

/-- Method `deserialize_unit`: inside `read_inner_value`, peek must show an
`EndElement` (which is not consumed), then `visit_unit` runs; `vunit` is
the `visit_unit` result of the visitor. -/
def deserialize_unit {α : Type} (vunit : Except Error α)
    (d : Deserializer) : Res α :=
  d.read_inner_value (fun this =>
    match this.peek with
    | .ok (.EndElement _) d1 =>
      (match vunit with
       | .ok a => .ok a d1
       | .error e => .err e d1)
    | .ok e d1 => .err (.MismatchError kindEndElement (eventKind e)) d1
    | .err e d1 => .err e d1
    | .panics msg => .panics msg)

/-- Method `deserialize_unit_struct` — forwards to `deserialize_unit`. -/
def deserialize_unit_struct {α : Type} (vunit : Except Error α)
    (d : Deserializer) : Res α := deserialize_unit vunit d

/-- Method `deserialize_option`: when the map-value flag is set, route through
`read_inner_value` and always `visit_some`; otherwise peek — an
`EndElement` means `visit_none`, anything else means `visit_some` at the
same position.  `pay` is the deserialization of the payload
(`T::deserialize`, invoked by `visit_some` of the option visitor). -/
def deserialize_option {α : Type} (pay : Deserializer → Res α)
    (d : Deserializer) : Res (Option α) :=
  if d.is_map_value then
    d.read_inner_value (fun this =>
      match pay this with
      | .ok a d1 => .ok (some a) d1
      | .err e d1 => .err e d1
      | .panics msg => .panics msg)
  else
    match d.peek with
    | .ok (.EndElement _) d1 => .ok none d1
    | .ok _ d1 =>
      (match pay d1 with
       | .ok a d2 => .ok (some a) d2
       | .err e d2 => .err e d2
       | .panics msg => .panics msg)
    | .err e d1 => .err e d1
    | .panics msg => .panics msg

/-- Method `deserialize_struct`: clear the map-value flag, consume the
`StartElement`, run the record visitor on the attributes of the element (with
the `$value` catch-all flag from the declared field list), then require
the matching end tag.  `vmap` abstracts
`visitor.visit_map(MapVisitor::new(..))`, whose body (map.rs) is not
under src/. -/
def deserialize_struct {α : Type} (fields : List String)
    (vmap : List OwnedAttribute → Bool → Deserializer → Res α)
    (d : Deserializer) : Res α :=
  match d.unset_map_value with
  | (_, d0) =>
    match d0.next with
    | .ok (.StartElement name attributes) d1 =>
      (match vmap attributes (fields.contains valueFieldName) d1 with
       | .ok v d2 =>
         (match d2.expect_end_element name with
          | .ok _ d3 => .ok v d3
          | .err e d3 => .err e d3
          | .panics msg => .panics msg)
       | .err e d2 => .err e d2
       | .panics msg => .panics msg)
    | .ok e d1 => .err (.MismatchError kindStartElement (eventKind e)) d1
    | .err e d1 => .err e d1
    | .panics msg => .panics msg

/-- Method `deserialize_map`: like `deserialize_struct` but with no catch-all
field. -/
def deserialize_map {α : Type}
    (vmap : List OwnedAttribute → Bool → Deserializer → Res α)
    (d : Deserializer) : Res α :=
  match d.unset_map_value with
  | (_, d0) =>
    match d0.next with
    | .ok (.StartElement name attributes) d1 =>
      (match vmap attributes false d1 with
       | .ok v d2 =>
         (match d2.expect_end_element name with
          | .ok _ d3 => .ok v d3
          | .err e d3 => .err e d3
          | .panics msg => .panics msg)
       | .err e d2 => .err e d2
       | .panics msg => .panics msg)
    | .ok e d1 => .err (.MismatchError kindStartElement (eventKind e)) d1
    | .err e d1 => .err e d1
    | .panics msg => .panics msg

/-- Method `deserialize_enum`: `visitor.visit_enum(EnumVisitor::new(self))`
inside `read_inner_value`; `venum` abstracts the variant visitor, whose
body (var.rs) is not under src/. -/
def deserialize_enum {α : Type} (venum : Deserializer → Res α)
    (d : Deserializer) : Res α :=
  d.read_inner_value venum

end Deserializer

/-- A successful `innerNextList` strictly shrinks the raw stream. -/
def innerNextShrinks :
    ∀ (l : List XmlEvent) (p : XmlEvent × List XmlEvent),
      innerNextList l = some p → p.2.length < l.length := by
  intro l
  induction l with
  | nil => intro p hp; simp [innerNextList] at hp
  | cons y ys ih =>
    intro p hp
    by_cases hy : y.skipped
    · rw [innerNextList, if_pos hy] at hp
      exact Nat.lt_trans (ih p hp) (Nat.lt_succ_self _)
    · rw [innerNextList, if_neg hy] at hp
      cases hp
      simp

/-- A successful `next` strictly shrinks `dmeasure` (it consumes the
lookahead buffer or at least one unread event); this is the termination
argument for the driver loops below. -/
def nextShrinks :
    ∀ (x : Deserializer) (a : XmlEvent) (x1 : Deserializer),
      Deserializer.next x = Res.ok a x1 → dmeasure x1 < dmeasure x := by
  intro x a x1 hx
  obtain ⟨dep, evs, pk, m⟩ := x
  cases pk with
  | some e0 =>
    cases e0 <;> simp only [Deserializer.next] at hx
    case EndElement nm =>
      split at hx
      · cases hx
      · cases hx
        simp [dmeasure]
    all_goals (cases hx; simp [dmeasure])
  | none =>
    cases hl : innerNextList evs with
    | none =>
      simp only [Deserializer.next, Deserializer.inner_next] at hx
      rw [hl] at hx
      cases hx
    | some p =>
      obtain ⟨e2, es⟩ := p
      have hlt : es.length < evs.length := by
        simpa using innerNextShrinks _ _ hl
      simp only [Deserializer.next, Deserializer.inner_next] at hx
      rw [hl] at hx
      cases e2 <;> simp only [] at hx
      case EndElement nm =>
        split at hx
        · cases hx
        · cases hx
          simp [dmeasure]
          omega
      all_goals (cases hx; simp [dmeasure]; omega)

/-- The `loop` body of `deserialize_ignored_any`: keep consuming events
until the depth counter returns to the value recorded at entry. -/
def skip_loop (entry : Nat) (d : Deserializer) : Res Unit :=
  match h : d.next with
  | .ok _ d1 => if d1.depth = entry then .ok () d1 else skip_loop entry d1
  | .err e d1 => .err e d1
  | .panics msg => .panics msg
termination_by dmeasure d
decreasing_by exact nextShrinks _ _ _ h

namespace Deserializer

/-- Method `deserialize_ignored_any`: clear the map-value flag, record the
current depth, loop `next` until the depth returns to the recorded value,
then `visit_unit` (`vunit`). -/
def deserialize_ignored_any {α : Type} (vunit : Except Error α)
    (d : Deserializer) : Res α :=
  match d.unset_map_value with
  | (_, d0) =>
    match skip_loop d0.depth d0 with
    | .ok _ d1 =>
      (match vunit with
       | .ok a => .ok a d1
       | .error e => .err e d1)
    | .err e d1 => .err e d1
    | .panics msg => .panics msg

/-- Modelled from the spec: seq.rs (the Sequence Visitor) is not under
src/.  The spec describes the pending flag as a one-shot signal and the
sequence visitor as decoding "a run of sibling elements sharing the first
encountered tag", so constructing the visitor takes the flag and, when it
was set, records the tag name of the run from the peeked `StartElement` (the
internal invariant that a `StartElement` is pending is debug-guarded and
modelled as a panic). -/
def seqVisitorNewState (d : Deserializer) : Res (Option OwnedName) :=
  match d.unset_map_value with
  | (was, d0) =>
    if was then
      match d0.peek with
      | .ok (.StartElement name _) d1 => .ok (some name) d1
      | _ => .panics internalErrMsg
    else .ok none d0

/-- Method `deserialize_seq`: `visitor.visit_seq(SeqVisitor::new(self, None))`;
`vseq` abstracts the item loop of the sequence visitor, which receives the
expected tag name recorded at construction. -/
def deserialize_seq {α : Type}
    (vseq : Option OwnedName → Deserializer → Res α)
    (d : Deserializer) : Res α :=
  match seqVisitorNewState d with
  | .ok nm d1 => vseq nm d1
  | .err e d1 => .err e d1
  | .panics msg => .panics msg

/-- Method `deserialize_seq_fixed_size`:
`visitor.visit_seq(SeqVisitor::new(self, Some(len)))`; the length bound
lives in the visitor, which `vseq` abstracts. -/
def deserialize_seq_fixed_size {α : Type} (len : Nat)
    (vseq : Option OwnedName → Deserializer → Res α)
    (d : Deserializer) : Res α :=
  deserialize_seq vseq d

/-- Method `deserialize_tuple` — forwards to `deserialize_seq_fixed_size`. -/
def deserialize_tuple {α : Type} (len : Nat)
    (vseq : Option OwnedName → Deserializer → Res α)
    (d : Deserializer) : Res α :=
  deserialize_seq_fixed_size len vseq d

/-- Method `deserialize_tuple_struct` — forwards to `deserialize_tuple`. -/
def deserialize_tuple_struct {α : Type} (len : Nat)
    (vseq : Option OwnedName → Deserializer → Res α)
    (d : Deserializer) : Res α :=
  deserialize_tuple len vseq d

/-- The hint-free `deserialize` (untyped dispatch): peek — a
`StartElement` routes to `deserialize_map`, an `EndElement` to
`deserialize_unit`, anything else to `deserialize_string`. -/
def deserialize {α : Type}
    (vmap : List OwnedAttribute → Bool → Deserializer → Res α)
    (vunit : Except Error α) (vis : String → Except Error α)
    (d : Deserializer) : Res α :=
  match d.peek with
  | .ok (.StartElement _ _) d1 => deserialize_map vmap d1
  | .ok (.EndElement _) d1 => deserialize_unit vunit d1
  | .ok _ d1 => deserialize_string vis d1
  | .err e d1 => .err e d1
  | .panics msg => .panics msg

end Deserializer

/-- The crate-level convenience entry point
`deserialize<R, T>(reader) = T::deserialize(&mut Deserializer::new_from_reader(reader))`;
`impl` is the `Deserialize` implementation of the destination type. -/
def deserialize {α : Type} (impl : Deserializer → Res α)
    (events : List XmlEvent) : Res α :=
  impl (Deserializer.new_from_reader events)

/-- A driver that pulls events until the reader is exhausted, used to
state the end-of-stream depth invariant.  The only `err` that `next`
produces is stream exhaustion, at which point the loop stops and
returns the final state. -/
def consume_all (d : Deserializer) : Res Unit :=
  match h : d.next with
  | .ok _ d1 => consume_all d1
  | .err _ d1 => .ok () d1
  | .panics msg => .panics msg
termination_by dmeasure d
decreasing_by exact nextShrinks _ _ _ h

mutual
/-- One well-formed XML subtree, as seen at the event level: an element
with a list of well-formed children, or a text run. -/
inductive Node where
  | elem (name : OwnedName) (attributes : List OwnedAttribute)
      (children : Forest)
  | text (s : String)
/-- A sequence of well-formed sibling subtrees. -/
inductive Forest where
  | nil
  | cons (head : Node) (tail : Forest)
end

mutual
/-- The event run of a well-formed subtree. -/
def Node.events : Node → List XmlEvent
  | .elem name attributes children =>
    XmlEvent.StartElement name attributes ::
      (children.events ++ [XmlEvent.EndElement name])
  | .text s => [XmlEvent.Characters s]
/-- The event run of a sequence of sibling subtrees. -/
def Forest.events : Forest → List XmlEvent
  | .nil => []
  | .cons n ns => n.events ++ ns.events
end

/-- Spec-side depth automaton over a raw event list: starting from `dep`,
`StartElement` adds one, `EndElement` removes one (failing on underflow),
everything else is neutral; returns the final depth when no prefix
underflows. -/
def runDepth : Nat → List XmlEvent → Option Nat
  | dep, [] => some dep
  | dep, XmlEvent.StartElement _ _ :: es => runDepth (dep + 1) es
  | dep, XmlEvent.EndElement _ :: es =>
    if dep = 0 then none else runDepth (dep - 1) es
  | dep, _ :: es => runDepth dep es

/-- Spec-side well-formedness in the balanced (Dyck) sense: no prefix of
the stream closes more elements than it opened, and the whole stream
closes every element it opened. -/
def balanced (evs : List XmlEvent) : Prop := runDepth 0 evs = some 0

/-- A visitor callback that recurses into the deserializer and, started
with the map-value flag clear, hands it back clear on success. -/
def FlagPreserving {α : Type} (g : Deserializer → Res α) : Prop :=
  ∀ (d : Deserializer) (a : α) (d1 : Deserializer),
    d.is_map_value = false → g d = Res.ok a d1 → d1.is_map_value = false

/-- The XML serializer (serialize.rs): holds only its output sink; the
`W: Write` sink is modelled as the string it has received so far. -/
structure Serializer where
  writer : String
deriving DecidableEq, Repr

/-- Result of a serializer method: success with the updated sink, or a
Rust panic (`unimplemented!()`). -/
inductive SerRes (α : Type) where
  | ok (a : α) (s : Serializer)
  | panics (msg : String)
deriving DecidableEq, Repr

/-- Returns `true` iff the serializer call returned `Ok`. -/
def serIsOk {α : Type} : SerRes α → Bool
  | .ok _ _ => true
  | _ => false

namespace Serializer

/-- Method `serialize_bool`: the one implemented method — writes `true` or
`false` to the sink and succeeds. -/
def serialize_bool (s : Serializer) (v : Bool) : SerRes Unit :=
  .ok () ⟨s.writer ++ (if v then "true" else "false")⟩

/-- Method `serialize_i8` — `unimplemented!()`. -/
def serialize_i8 (s : Serializer) (v : Int) : SerRes Unit :=
  .panics notImplementedMsg

/-- Method `serialize_i16` — `unimplemented!()`. -/
def serialize_i16 (s : Serializer) (v : Int) : SerRes Unit :=
  .panics notImplementedMsg

/-- Method `serialize_i32` — `unimplemented!()`. -/
def serialize_i32 (s : Serializer) (v : Int) : SerRes Unit :=
  .panics notImplementedMsg

/-- Method `serialize_i64` — `unimplemented!()`. -/
def serialize_i64 (s : Serializer) (v : Int) : SerRes Unit :=
  .panics notImplementedMsg

/-- Method `serialize_u8` — `unimplemented!()`. -/
def serialize_u8 (s : Serializer) (v : Nat) : SerRes Unit :=
  .panics notImplementedMsg

/-- Method `serialize_u16` — `unimplemented!()`. -/
def serialize_u16 (s : Serializer) (v : Nat) : SerRes Unit :=
  .panics notImplementedMsg

/-- Method `serialize_u32` — `unimplemented!()`. -/
def serialize_u32 (s : Serializer) (v : Nat) : SerRes Unit :=
  .panics notImplementedMsg

/-- Method `serialize_u64` — `unimplemented!()`. -/
def serialize_u64 (s : Serializer) (v : Nat) : SerRes Unit :=
  .panics notImplementedMsg

/-- Method `serialize_f32` — `unimplemented!()`; the floating-point payload is
never inspected, so its type is left abstract. -/
def serialize_f32 {α : Type} (s : Serializer) (v : α) : SerRes Unit :=
  .panics notImplementedMsg

/-- Method `serialize_f64` — `unimplemented!()`. -/
def serialize_f64 {α : Type} (s : Serializer) (v : α) : SerRes Unit :=
  .panics notImplementedMsg

/-- Method `serialize_char` — `unimplemented!()`. -/
def serialize_char (s : Serializer) (v : Char) : SerRes Unit :=
  .panics notImplementedMsg

/-- Method `serialize_str` — `unimplemented!()`. -/
def serialize_str (s : Serializer) (value : String) : SerRes Unit :=
  .panics notImplementedMsg

/-- Method `serialize_bytes` — `unimplemented!()`. -/
def serialize_bytes (s : Serializer) (value : List Nat) : SerRes Unit :=
  .panics notImplementedMsg

/-- Method `serialize_none` — `unimplemented!()`. -/
def serialize_none (s : Serializer) : SerRes Unit :=
  .panics notImplementedMsg

/-- Method `serialize_some` — `unimplemented!()`; the payload is never
serialized. -/
def serialize_some {α : Type} (s : Serializer) (value : α) : SerRes Unit :=
  .panics notImplementedMsg

/-- Method `serialize_unit` — `unimplemented!()`. -/
def serialize_unit (s : Serializer) : SerRes Unit :=
  .panics notImplementedMsg

/-- Method `serialize_unit_struct` — `unimplemented!()`. -/
def serialize_unit_struct (s : Serializer) (name : String) : SerRes Unit :=
  .panics notImplementedMsg

/-- Method `serialize_unit_variant` — `unimplemented!()`. -/
def serialize_unit_variant (s : Serializer) (name : String)
    (variant_index : Nat) (variant : String) : SerRes Unit :=
  .panics notImplementedMsg

/-- Method `serialize_newtype_struct` — `unimplemented!()`. -/
def serialize_newtype_struct {α : Type} (s : Serializer) (name : String)
    (value : α) : SerRes Unit :=
  .panics notImplementedMsg

/-- Method `serialize_newtype_variant` — `unimplemented!()`. -/
def serialize_newtype_variant {α : Type} (s : Serializer) (name : String)
    (variant_index : Nat) (variant : String) (value : α) : SerRes Unit :=
  .panics notImplementedMsg

/-- Method `serialize_seq` — `unimplemented!()` (its Ok type is `Impossible`). -/
def serialize_seq (s : Serializer) (len : Option Nat) : SerRes Unit :=
  .panics notImplementedMsg

/-- Method `serialize_seq_fixed_size` — `unimplemented!()`. -/
def serialize_seq_fixed_size (s : Serializer) (size : Nat) : SerRes Unit :=
  .panics notImplementedMsg

/-- Method `serialize_tuple` — `unimplemented!()`. -/
def serialize_tuple (s : Serializer) (len : Nat) : SerRes Unit :=
  .panics notImplementedMsg

/-- Method `serialize_tuple_struct` — `unimplemented!()`. -/
def serialize_tuple_struct (s : Serializer) (name : String) (len : Nat) :
    SerRes Unit :=
  .panics notImplementedMsg

/-- Method `serialize_tuple_variant` — `unimplemented!()`. -/
def serialize_tuple_variant (s : Serializer) (name : String)
    (variant_index : Nat) (variant : String) (len : Nat) : SerRes Unit :=
  .panics notImplementedMsg

/-- Method `serialize_map` — `unimplemented!()`. -/
def serialize_map (s : Serializer) (len : Option Nat) : SerRes Unit :=
  .panics notImplementedMsg

/-- Method `serialize_struct` — `unimplemented!()`. -/
def serialize_struct (s : Serializer) (name : String) (len : Nat) :
    SerRes Unit :=
  .panics notImplementedMsg

/-- Method `serialize_struct_variant` — `unimplemented!()`. -/
def serialize_struct_variant (s : Serializer) (name : String)
    (variant_index : Nat) (variant : String) (len : Nat) : SerRes Unit :=
  .panics notImplementedMsg

end Serializer

-- ===== helper lemmas (cursor micro-steps) =====

theorem next_cons_start (dep : Nat) (nm : OwnedName) (attrs : List OwnedAttribute)
    (rest : List XmlEvent) (m : Bool) :
    Deserializer.next ⟨dep, XmlEvent.StartElement nm attrs :: rest, none, m⟩
      = Res.ok (XmlEvent.StartElement nm attrs) ⟨dep + 1, rest, none, m⟩ := rfl

theorem next_cons_chars (dep : Nat) (s : String) (rest : List XmlEvent) (m : Bool) :
    Deserializer.next ⟨dep, XmlEvent.Characters s :: rest, none, m⟩
      = Res.ok (XmlEvent.Characters s) ⟨dep, rest, none, m⟩ := rfl

theorem next_cons_end (dep : Nat) (nm : OwnedName) (rest : List XmlEvent) (m : Bool) :
    Deserializer.next ⟨dep + 1, XmlEvent.EndElement nm :: rest, none, m⟩
      = Res.ok (XmlEvent.EndElement nm) ⟨dep, rest, none, m⟩ := rfl

theorem next_buf_end (dep : Nat) (nm : OwnedName) (evs : List XmlEvent) (m : Bool) :
    Deserializer.next ⟨dep + 1, evs, some (XmlEvent.EndElement nm), m⟩
      = Res.ok (XmlEvent.EndElement nm) ⟨dep, evs, none, m⟩ := rfl

theorem next_end_underflow (evs : List XmlEvent) (m : Bool) (nm : OwnedName) :
    Deserializer.next ⟨0, XmlEvent.EndElement nm :: evs, none, m⟩
      = Res.panics underflowMsg := rfl

theorem peek_cons (dep : Nat) (e : XmlEvent) (rest : List XmlEvent) (m : Bool)
    (hskip : e.skipped = false) :
    Deserializer.peek ⟨dep, e :: rest, none, m⟩ = Res.ok e ⟨dep, rest, some e, m⟩ := by
  simp [Deserializer.peek, innerNextList, hskip]

example : True := trivial

-- ===== C8 =====

/-- C8 counterexample: `serialize_bool true` completes successfully and
writes `true`, so not every serializer method fails. -/
theorem serialize_bool_ok_counterexample :
    Serializer.serialize_bool ⟨""⟩ true = SerRes.ok () ⟨"true"⟩ := rfl

/-- C8 (amended): every serializer method except `serialize_bool` is a
non-functional stub that panics with `unimplemented!()`; `serialize_bool`
succeeds on every input, appending the literal `true`/`false` text to the
sink. -/
theorem serializer_stub_spec :
    (∀ (s : Serializer),
        Serializer.serialize_bool s true = SerRes.ok () ⟨s.writer ++ "true"⟩
        ∧ Serializer.serialize_bool s false = SerRes.ok () ⟨s.writer ++ "false"⟩)
    ∧ (∀ (s : Serializer) (v : Int),
        Serializer.serialize_i8 s v = SerRes.panics notImplementedMsg
        ∧ Serializer.serialize_i16 s v = SerRes.panics notImplementedMsg
        ∧ Serializer.serialize_i32 s v = SerRes.panics notImplementedMsg
        ∧ Serializer.serialize_i64 s v = SerRes.panics notImplementedMsg)
    ∧ (∀ (s : Serializer) (v : Nat),
        Serializer.serialize_u8 s v = SerRes.panics notImplementedMsg
        ∧ Serializer.serialize_u16 s v = SerRes.panics notImplementedMsg
        ∧ Serializer.serialize_u32 s v = SerRes.panics notImplementedMsg
        ∧ Serializer.serialize_u64 s v = SerRes.panics notImplementedMsg)
    ∧ (∀ (α : Type) (s : Serializer) (v : α),
        Serializer.serialize_f32 s v = SerRes.panics notImplementedMsg
        ∧ Serializer.serialize_f64 s v = SerRes.panics notImplementedMsg
        ∧ Serializer.serialize_some s v = SerRes.panics notImplementedMsg)
    ∧ (∀ (s : Serializer) (c : Char),
        Serializer.serialize_char s c = SerRes.panics notImplementedMsg)
    ∧ (∀ (s : Serializer) (t : String),
        Serializer.serialize_str s t = SerRes.panics notImplementedMsg
        ∧ Serializer.serialize_unit_struct s t = SerRes.panics notImplementedMsg)
    ∧ (∀ (s : Serializer) (b : List Nat),
        Serializer.serialize_bytes s b = SerRes.panics notImplementedMsg)
    ∧ (∀ (s : Serializer),
        Serializer.serialize_none s = SerRes.panics notImplementedMsg
        ∧ Serializer.serialize_unit s = SerRes.panics notImplementedMsg)
    ∧ (∀ (s : Serializer) (name variant : String) (i : Nat),
        Serializer.serialize_unit_variant s name i variant
          = SerRes.panics notImplementedMsg)
    ∧ (∀ (α : Type) (s : Serializer) (name : String) (v : α),
        Serializer.serialize_newtype_struct s name v
          = SerRes.panics notImplementedMsg)
    ∧ (∀ (α : Type) (s : Serializer) (name variant : String) (i : Nat) (v : α),
        Serializer.serialize_newtype_variant s name i variant v
          = SerRes.panics notImplementedMsg)
    ∧ (∀ (s : Serializer) (len : Option Nat),
        Serializer.serialize_seq s len = SerRes.panics notImplementedMsg
        ∧ Serializer.serialize_map s len = SerRes.panics notImplementedMsg)
    ∧ (∀ (s : Serializer) (n : Nat),
        Serializer.serialize_seq_fixed_size s n = SerRes.panics notImplementedMsg
        ∧ Serializer.serialize_tuple s n = SerRes.panics notImplementedMsg)
    ∧ (∀ (s : Serializer) (name : String) (n : Nat),
        Serializer.serialize_tuple_struct s name n = SerRes.panics notImplementedMsg
        ∧ Serializer.serialize_struct s name n = SerRes.panics notImplementedMsg)
    ∧ (∀ (s : Serializer) (name variant : String) (i n : Nat),
        Serializer.serialize_tuple_variant s name i variant n
          = SerRes.panics notImplementedMsg
        ∧ Serializer.serialize_struct_variant s name i variant n
          = SerRes.panics notImplementedMsg) := by
  exact ⟨fun s => ⟨rfl, rfl⟩, fun s v => ⟨rfl, rfl, rfl, rfl⟩,
    fun s v => ⟨rfl, rfl, rfl, rfl⟩, fun α s v => ⟨rfl, rfl, rfl⟩,
    fun s c => rfl, fun s t => ⟨rfl, rfl⟩, fun s b => rfl,
    fun s => ⟨rfl, rfl⟩, fun s name variant i => rfl,
    fun α s name v => rfl, fun α s name variant i v => rfl,
    fun s len => ⟨rfl, rfl⟩, fun s n => ⟨rfl, rfl⟩,
    fun s name n => ⟨rfl, rfl⟩, fun s name variant i n => ⟨rfl, rfl⟩⟩

-- ===== C1 =====

/-- C1: `expect_end_element` consumes exactly one event; it succeeds iff
that event is an `EndElement` whose name equals the start name, and on an
`EndElement` with a non-matching name it fails with the structural
mismatch error carrying the found and expected names. -/
theorem expect_end_element_spec
    (dep : Nat) (e : XmlEvent) (rest : List XmlEvent) (m : Bool)
    (start_name : OwnedName)
    (hdep : 0 < dep) (hskip : e.skipped = false) :
    (isOk (Deserializer.expect_end_element ⟨dep, e :: rest, none, m⟩ start_name) = true
       ↔ e = XmlEvent.EndElement start_name)
    ∧ (∃ d1, resultState (Deserializer.expect_end_element ⟨dep, e :: rest, none, m⟩ start_name)
         = some d1 ∧ d1.events = rest ∧ d1.peeked = none)
    ∧ (∀ nm, e = XmlEvent.EndElement nm → nm ≠ start_name →
         Deserializer.expect_end_element ⟨dep, e :: rest, none, m⟩ start_name
           = Res.err (Error.Custom (mismatchMsg nm start_name)) ⟨dep - 1, rest, none, m⟩) := by
  obtain ⟨k, rfl⟩ : ∃ k, dep = k + 1 := ⟨dep - 1, by omega⟩
  cases e with
  | StartDocument => simp [XmlEvent.skipped] at hskip
  | EndDocument => simp [XmlEvent.skipped] at hskip
  | ProcessingInstruction => simp [XmlEvent.skipped] at hskip
  | Comment t => simp [XmlEvent.skipped] at hskip
  | StartElement nm attrs =>
    have hE : Deserializer.expect_end_element ⟨k + 1, XmlEvent.StartElement nm attrs :: rest, none, m⟩ start_name
        = Res.err (Error.MismatchError kindEndElement kindStartElement) ⟨k + 2, rest, none, m⟩ := by
      simp [Deserializer.expect_end_element, next_cons_start, eventKind,
        kindStartElement, kindEndElement]
    refine ⟨by simp [hE, isOk], ⟨⟨k + 2, rest, none, m⟩, by simp [hE, resultState]⟩, ?_⟩
    intro nm2 h
    cases h
  | Characters s =>
    have hE : Deserializer.expect_end_element ⟨k + 1, XmlEvent.Characters s :: rest, none, m⟩ start_name
        = Res.err (Error.MismatchError kindEndElement kindCharacters) ⟨k + 1, rest, none, m⟩ := by
      simp [Deserializer.expect_end_element, next_cons_chars, eventKind,
        kindCharacters, kindEndElement]
    refine ⟨by simp [hE, isOk], ⟨⟨k + 1, rest, none, m⟩, by simp [hE, resultState]⟩, ?_⟩
    intro nm2 h
    cases h
  | EndElement nm =>
    by_cases hnm : nm = start_name
    · subst hnm
      have hE : Deserializer.expect_end_element ⟨k + 1, XmlEvent.EndElement nm :: rest, none, m⟩ nm
          = Res.ok () ⟨k, rest, none, m⟩ := by
        simp [Deserializer.expect_end_element, next_cons_end]
      refine ⟨by simp [hE, isOk], ⟨⟨k, rest, none, m⟩, by simp [hE, resultState]⟩, ?_⟩
      intro nm2 h hne
      cases h
      exact absurd rfl hne
    · have hE : Deserializer.expect_end_element ⟨k + 1, XmlEvent.EndElement nm :: rest, none, m⟩ start_name
          = Res.err (Error.Custom (mismatchMsg nm start_name)) ⟨k, rest, none, m⟩ := by
        simp [Deserializer.expect_end_element, next_cons_end, hnm]
      refine ⟨by simp [hE, isOk, hnm], ⟨⟨k, rest, none, m⟩, by simp [hE, resultState]⟩, ?_⟩
      intro nm2 h hne
      cases h
      simpa using hE

/-- C1 witness: a concrete matching end tag. -/
theorem expect_end_element_spec_witness :
    isOk (Deserializer.expect_end_element
      ⟨1, [XmlEvent.EndElement ⟨"a", none⟩], none, false⟩ ⟨"a", none⟩) = true :=
  (expect_end_element_spec 1 (XmlEvent.EndElement ⟨"a", none⟩) [] false ⟨"a", none⟩
    (by decide) (by decide)).1.mpr rfl

theorem peek_buf (dep : Nat) (evs : List XmlEvent) (e : XmlEvent) (m : Bool) :
    Deserializer.peek ⟨dep, evs, some e, m⟩ = Res.ok e ⟨dep, evs, some e, m⟩ := rfl

theorem next_buf_chars (dep : Nat) (evs : List XmlEvent) (s : String) (m : Bool) :
    Deserializer.next ⟨dep, evs, some (XmlEvent.Characters s), m⟩
      = Res.ok (XmlEvent.Characters s) ⟨dep, evs, none, m⟩ := rfl

theorem next_buf_start (dep : Nat) (evs : List XmlEvent) (nm : OwnedName)
    (attrs : List OwnedAttribute) (m : Bool) :
    Deserializer.next ⟨dep, evs, some (XmlEvent.StartElement nm attrs), m⟩
      = Res.ok (XmlEvent.StartElement nm attrs) ⟨dep + 1, evs, none, m⟩ := rfl

-- ===== C5 =====

/-- C5: the inner scalar read (wrapping step already resolved): a peeked
`EndElement` yields the empty string without consuming it; otherwise
exactly one event is consumed and must be a `Characters` event whose text
is passed to the visitor; any other event kind is an error. -/
theorem read_string_inner_spec (α : Type) (vis : String → Except Error α)
    (dep : Nat) (e : XmlEvent) (rest : List XmlEvent) (m : Bool)
    (hskip : e.skipped = false) :
    (∀ nm, e = XmlEvent.EndElement nm →
       Deserializer.read_string_inner vis ⟨dep, e :: rest, none, m⟩
         = (match vis ("") with
            | .ok a => Res.ok a ⟨dep, rest, some e, m⟩
            | .error er => Res.err er ⟨dep, rest, some e, m⟩)
       ∧ semEvents (⟨dep, rest, some e, m⟩ : Deserializer)
           = semEvents ⟨dep, e :: rest, none, m⟩)
    ∧ (∀ s, e = XmlEvent.Characters s →
       Deserializer.read_string_inner vis ⟨dep, e :: rest, none, m⟩
         = (match vis s with
            | .ok a => Res.ok a ⟨dep, rest, none, m⟩
            | .error er => Res.err er ⟨dep, rest, none, m⟩))
    ∧ (∀ nm attrs, e = XmlEvent.StartElement nm attrs →
       Deserializer.read_string_inner vis ⟨dep, e :: rest, none, m⟩
         = Res.err (Error.MismatchError kindCharacters kindStartElement)
             ⟨dep + 1, rest, none, m⟩) := by
  refine ⟨?_, ?_, ?_⟩
  · intro nm h
    subst h
    constructor
    · rfl
    · simp [semEvents, XmlEvent.skipped]
  · intro s h
    subst h
    rfl
  · intro nm attrs h
    subst h
    rfl

/-- C5 witness: a concrete Characters read. -/
theorem read_string_inner_spec_witness :
    Deserializer.read_string_inner (fun s => Except.ok s)
      ⟨0, [XmlEvent.Characters ("x")], none, false⟩
      = Res.ok ("x") ⟨0, [], none, false⟩ :=
  (read_string_inner_spec String (fun s => Except.ok s) 0 (XmlEvent.Characters ("x"))
    [] false (by decide)).2.1 ("x") rfl

-- ===== C2 =====

/-- C2 counterexample: with the map-value flag set over
`<a>x</a>`-shaped events the scalar read consumes the wrapping
`StartElement` and succeeds, while the same stream with the flag unset is
decoded directly and fails — the opposite of the claimed flag roles. -/
theorem deserialize_string_flag_counterexample :
    Deserializer.deserialize_string (fun s => Except.ok s)
      ⟨0, [XmlEvent.StartElement ⟨"a", none⟩ [], XmlEvent.Characters ("x"),
           XmlEvent.EndElement ⟨"a", none⟩], none, true⟩
      = Res.ok ("x") ⟨0, [], none, false⟩
    ∧ isOk (Deserializer.deserialize_string (fun s => Except.ok s)
      ⟨0, [XmlEvent.StartElement ⟨"a", none⟩ [], XmlEvent.Characters ("x"),
           XmlEvent.EndElement ⟨"a", none⟩], none, false⟩) = false := by
  exact ⟨by decide, by decide⟩

/-- C2 (amended): when the map-value flag is set the scalar read first
consumes the wrapping `StartElement`, decodes the text, then requires the
matching end tag; when the flag is unset it decodes the text directly,
consuming no wrapping `StartElement`. -/
theorem deserialize_string_wrapper_spec (α : Type) (vis : String → Except Error α)
    (a : α) (dep : Nat) (nm : OwnedName) (attrs : List OwnedAttribute)
    (s : String) (rest : List XmlEvent) :
    (vis s = Except.ok a →
       Deserializer.deserialize_string vis
         ⟨dep, XmlEvent.StartElement nm attrs :: XmlEvent.Characters s ::
            XmlEvent.EndElement nm :: rest, none, true⟩
         = Res.ok a ⟨dep, rest, none, false⟩)
    ∧ (vis ("") = Except.ok a →
       Deserializer.deserialize_string vis
         ⟨dep, XmlEvent.StartElement nm attrs :: XmlEvent.EndElement nm :: rest,
           none, true⟩
         = Res.ok a ⟨dep, rest, none, false⟩)
    ∧ (vis s = Except.ok a →
       Deserializer.deserialize_string vis ⟨dep, XmlEvent.Characters s :: rest, none, false⟩
         = Res.ok a ⟨dep, rest, none, false⟩) := by
  refine ⟨?_, ?_, ?_⟩
  · intro hvis
    simp [Deserializer.deserialize_string, Deserializer.read_inner_value,
      Deserializer.unset_map_value, next_cons_start, Deserializer.read_string_inner,
      Deserializer.peek, innerNextList, XmlEvent.skipped, next_buf_chars, hvis,
      Deserializer.expect_end_element, next_cons_end]
  · intro hvis
    simp [Deserializer.deserialize_string, Deserializer.read_inner_value,
      Deserializer.unset_map_value, next_cons_start, Deserializer.read_string_inner,
      Deserializer.peek, innerNextList, XmlEvent.skipped, hvis,
      Deserializer.expect_end_element, next_buf_end]
  · intro hvis
    simp [Deserializer.deserialize_string, Deserializer.read_inner_value,
      Deserializer.unset_map_value, Deserializer.read_string_inner,
      Deserializer.peek, innerNextList, XmlEvent.skipped, next_buf_chars, hvis]

/-- C2 witness: concrete wrapped and direct reads. -/
theorem deserialize_string_wrapper_spec_witness :
    Deserializer.deserialize_string (fun s => Except.ok s)
      ⟨0, [XmlEvent.StartElement ⟨"b", none⟩ [], XmlEvent.Characters ("hi"),
           XmlEvent.EndElement ⟨"b", none⟩], none, true⟩
      = Res.ok ("hi") ⟨0, [], none, false⟩ :=
  (deserialize_string_wrapper_spec String (fun s => Except.ok s) "hi" 0 ⟨"b", none⟩
    [] "hi" []).1 rfl

-- ===== C3 =====

/-- C3 counterexample: a fresh `Deserializer` over `<a/>` (a root element
with no attributes and no children) does not decode into a Unit
destination: the map-value flag starts unset, so nothing consumes the
root `StartElement`, and the peek-for-`EndElement` check rejects it. -/
theorem deserialize_unit_fresh_counterexample :
    isOk (Deserializer.deserialize_unit (Except.ok ())
      (Deserializer.new [XmlEvent.StartElement ⟨"a", none⟩ [],
                         XmlEvent.EndElement ⟨"a", none⟩])) = false := by decide

/-- C3 (amended): decoding into a Unit destination consumes exactly the
`StartElement`/`EndElement` pair when the map-value flag is set (the
element being read as a field or variant payload); from a fresh
`Deserializer` the flag is unset and the decode instead fails at the
peeked root `StartElement` without consuming it. -/
theorem deserialize_unit_pair_spec (α : Type) (vunit : Except Error α) (a : α)
    (dep : Nat) (nm : OwnedName) (attrs : List OwnedAttribute)
    (rest : List XmlEvent) (hv : vunit = Except.ok a) :
    Deserializer.deserialize_unit vunit
      ⟨dep, XmlEvent.StartElement nm attrs :: XmlEvent.EndElement nm :: rest,
        none, true⟩
      = Res.ok a ⟨dep, rest, none, false⟩ := by
  subst hv
  simp [Deserializer.deserialize_unit, Deserializer.read_inner_value,
    Deserializer.unset_map_value, next_cons_start, Deserializer.peek,
    innerNextList, XmlEvent.skipped, Deserializer.expect_end_element,
    next_buf_end]

/-- C3 witness: a concrete field-position unit decode. -/
theorem deserialize_unit_pair_spec_witness :
    Deserializer.deserialize_unit (Except.ok ())
      ⟨0, [XmlEvent.StartElement ⟨"u", none⟩ [], XmlEvent.EndElement ⟨"u", none⟩],
        none, true⟩
      = Res.ok () ⟨0, [], none, false⟩ :=
  deserialize_unit_pair_spec Unit (Except.ok ()) () 0 ⟨"u", none⟩ [] [] rfl

-- ===== loop step lemmas =====

theorem skip_loop_step (t : Nat) (d : Deserializer) (e : XmlEvent) (d1 : Deserializer)
    (h : d.next = Res.ok e d1) :
    skip_loop t d = if d1.depth = t then Res.ok () d1 else skip_loop t d1 := by
  rw [skip_loop.eq_def]
  split
  · rename_i a d2 heq
    rw [h] at heq
    cases heq
    rfl
  · rename_i er d2 heq
    rw [h] at heq
    cases heq
  · rename_i msg heq
    rw [h] at heq
    cases heq

theorem skip_loop_panic (t : Nat) (d : Deserializer) (msg : String)
    (h : d.next = Res.panics msg) :
    skip_loop t d = Res.panics msg := by
  rw [skip_loop.eq_def]
  split
  · rename_i a d2 heq
    rw [h] at heq
    cases heq
  · rename_i er d2 heq
    rw [h] at heq
    cases heq
  · rename_i msg2 heq
    rw [h] at heq
    cases heq
    rfl

theorem consume_all_step (d : Deserializer) (e : XmlEvent) (d1 : Deserializer)
    (h : d.next = Res.ok e d1) :
    consume_all d = consume_all d1 := by
  rw [consume_all.eq_def]
  split
  · rename_i a d2 heq
    rw [h] at heq
    cases heq
    rfl
  · rename_i er d2 heq
    rw [h] at heq
    cases heq
  · rename_i msg heq
    rw [h] at heq
    cases heq

theorem consume_all_err (d : Deserializer) (er : Error) (d1 : Deserializer)
    (h : d.next = Res.err er d1) :
    consume_all d = Res.ok () d1 := by
  rw [consume_all.eq_def]
  split
  · rename_i a d2 heq
    rw [h] at heq
    cases heq
  · rename_i er2 d2 heq
    rw [h] at heq
    cases heq
    rfl
  · rename_i msg heq
    rw [h] at heq
    cases heq

theorem consume_all_panic (d : Deserializer) (msg : String)
    (h : d.next = Res.panics msg) :
    consume_all d = Res.panics msg := by
  rw [consume_all.eq_def]
  split
  · rename_i a d2 heq
    rw [h] at heq
    cases heq
  · rename_i er d2 heq
    rw [h] at heq
    cases heq
  · rename_i msg2 heq
    rw [h] at heq
    cases heq
    rfl

theorem next_cons_skip (dep : Nat) (e : XmlEvent) (es : List XmlEvent) (m : Bool)
    (h : e.skipped = true) :
    Deserializer.next ⟨dep, e :: es, none, m⟩ = Deserializer.next ⟨dep, es, none, m⟩ := by
  simp [Deserializer.next, Deserializer.inner_next, innerNextList, h]

example : True := trivial

-- ===== traversal of well-formed subtrees =====

mutual
theorem skip_loop_node (n : Node) (t dep : Nat) (rest : List XmlEvent) (m : Bool)
    (ht : t ≤ dep) :
    skip_loop t ⟨dep, n.events ++ rest, none, m⟩
      = if dep = t then Res.ok () ⟨dep, rest, none, m⟩
        else skip_loop t ⟨dep, rest, none, m⟩ := by
  cases n with
  | text s =>
    rw [show Node.events (Node.text s) ++ rest = XmlEvent.Characters s :: rest from rfl]
    rw [skip_loop_step t _ _ _ (next_cons_chars dep s rest m)]
  | elem nm attrs cs =>
    have hassoc : Node.events (Node.elem nm attrs cs) ++ rest
        = XmlEvent.StartElement nm attrs ::
            (cs.events ++ (XmlEvent.EndElement nm :: rest)) := by
      simp [Node.events]
    rw [hassoc,
      skip_loop_step t _ _ _
        (next_cons_start dep nm attrs (cs.events ++ (XmlEvent.EndElement nm :: rest)) m)]
    rw [show (⟨dep + 1, cs.events ++ (XmlEvent.EndElement nm :: rest), none, m⟩ :
        Deserializer).depth = dep + 1 from rfl]
    rw [if_neg (by omega : ¬ dep + 1 = t)]
    exact skip_loop_forest cs t dep nm rest m ht

theorem skip_loop_forest (ns : Forest) (t dep : Nat) (nm : OwnedName)
    (rest : List XmlEvent) (m : Bool) (ht : t ≤ dep) :
    skip_loop t ⟨dep + 1, ns.events ++ (XmlEvent.EndElement nm :: rest), none, m⟩
      = if dep = t then Res.ok () ⟨dep, rest, none, m⟩
        else skip_loop t ⟨dep, rest, none, m⟩ := by
  cases ns with
  | nil =>
    rw [show Forest.events Forest.nil ++ (XmlEvent.EndElement nm :: rest)
        = XmlEvent.EndElement nm :: rest from rfl]
    rw [skip_loop_step t _ _ _ (next_cons_end dep nm rest m)]
  | cons n ns2 =>
    have hassoc : Forest.events (Forest.cons n ns2) ++ (XmlEvent.EndElement nm :: rest)
        = n.events ++ (ns2.events ++ (XmlEvent.EndElement nm :: rest)) := by
      simp [Forest.events]
    rw [hassoc,
      skip_loop_node n t (dep + 1) (ns2.events ++ (XmlEvent.EndElement nm :: rest)) m
        (by omega)]
    rw [if_neg (by omega : ¬ dep + 1 = t)]
    exact skip_loop_forest ns2 t dep nm rest m ht
end

-- ===== C6 =====

/-- C6: `deserialize_ignored_any` at a position facing a well-formed
subtree consumes events until the depth returns to the value recorded at
entry, skipping exactly that subtree and leaving the cursor at the
following sibling. -/
theorem deserialize_ignored_any_spec (α : Type) (vunit : Except Error α) (a : α)
    (n : Node) (dep : Nat) (rest : List XmlEvent) (m : Bool)
    (hv : vunit = Except.ok a) :
    Deserializer.deserialize_ignored_any vunit ⟨dep, n.events ++ rest, none, m⟩
      = Res.ok a ⟨dep, rest, none, false⟩ := by
  subst hv
  simp only [Deserializer.deserialize_ignored_any, Deserializer.unset_map_value]
  rw [skip_loop_node n dep dep rest false (Nat.le_refl dep)]
  rw [if_pos rfl]

/-- C6 witness: skipping a concrete nested subtree. -/
theorem deserialize_ignored_any_spec_witness :
    Deserializer.deserialize_ignored_any (Except.ok ())
      ⟨0, (Node.elem ⟨"w", none⟩ []
            (Forest.cons (Node.text ("z"))
              (Forest.cons (Node.elem ⟨"v", none⟩ [] Forest.nil) Forest.nil))).events
          ++ [XmlEvent.EndElement ⟨"r", none⟩], none, true⟩
      = Res.ok () ⟨0, [XmlEvent.EndElement ⟨"r", none⟩], none, false⟩ :=
  deserialize_ignored_any_spec Unit (Except.ok ()) ()
    (Node.elem ⟨"w", none⟩ []
      (Forest.cons (Node.text ("z"))
        (Forest.cons (Node.elem ⟨"v", none⟩ [] Forest.nil) Forest.nil)))
    0 [XmlEvent.EndElement ⟨"r", none⟩] true rfl

-- ===== C4 =====

/-- C4: Option reads: with the map-value flag set every successful read
produces `Some` (recursing into the payload); with it unset a peeked
`EndElement` yields `None` and any other peeked event recurses as `Some`
at the same position, consuming nothing first; in particular a present
empty element `<f/>` decodes `some ""` and an absent field position
(facing the enclosing end tag) decodes `none`. -/
theorem deserialize_option_spec :
    (∀ (α : Type) (pay : Deserializer → Res α) (d : Deserializer) (v : Option α)
        (d1 : Deserializer), d.is_map_value = true →
        Deserializer.deserialize_option pay d = Res.ok v d1 → ∃ a, v = some a)
    ∧ (∀ (α : Type) (pay : Deserializer → Res α) (dep : Nat) (nm : OwnedName)
        (rest : List XmlEvent),
        Deserializer.deserialize_option pay
            ⟨dep, XmlEvent.EndElement nm :: rest, none, false⟩
          = Res.ok none ⟨dep, rest, some (XmlEvent.EndElement nm), false⟩)
    ∧ (∀ (α : Type) (pay : Deserializer → Res α) (dep : Nat) (e : XmlEvent)
        (rest : List XmlEvent), e.skipped = false →
        (∀ nm, e ≠ XmlEvent.EndElement nm) →
        Deserializer.deserialize_option pay ⟨dep, e :: rest, none, false⟩
          = (match pay ⟨dep, rest, some e, false⟩ with
             | .ok a d2 => Res.ok (some a) d2
             | .err er d2 => Res.err er d2
             | .panics msg => Res.panics msg)
        ∧ semEvents (⟨dep, rest, some e, false⟩ : Deserializer)
            = semEvents ⟨dep, e :: rest, none, false⟩)
    ∧ Deserializer.deserialize_option
        (Deserializer.deserialize_string (fun s => Except.ok s))
        (Deserializer.set_map_value
          ⟨0, [XmlEvent.StartElement ⟨"f", none⟩ [], XmlEvent.EndElement ⟨"f", none⟩],
            none, false⟩)
        = Res.ok (some ("")) ⟨0, [], none, false⟩
    ∧ Deserializer.deserialize_option
        (Deserializer.deserialize_string (fun s => Except.ok s))
        ⟨0, [XmlEvent.EndElement ⟨"a", none⟩], none, false⟩
        = Res.ok none ⟨0, [], some (XmlEvent.EndElement ⟨"a", none⟩), false⟩ := by
  refine ⟨?_, ?_, ?_, by decide, by decide⟩
  · intro α pay d v d1 hm h
    simp only [Deserializer.deserialize_option, hm, if_true,
      Deserializer.read_inner_value, Deserializer.unset_map_value] at h
    split at h
    · split at h
      · rename_i v2 d3 heq2
        split at heq2
        · rename_i a2 d4 hpay
          cases heq2
          split at h
          · cases h
            exact ⟨a2, rfl⟩
          · cases h
          · cases h
        · cases heq2
        · cases heq2
      · cases h
      · cases h
    · cases h
  · intro α pay dep nm rest
    rfl
  · intro α pay dep e rest hskip hne
    cases e with
    | StartDocument => simp [XmlEvent.skipped] at hskip
    | EndDocument => simp [XmlEvent.skipped] at hskip
    | ProcessingInstruction => simp [XmlEvent.skipped] at hskip
    | Comment t => simp [XmlEvent.skipped] at hskip
    | EndElement nm => exact absurd rfl (hne nm)
    | StartElement nm attrs => exact ⟨rfl, by simp [semEvents, XmlEvent.skipped]⟩
    | Characters s => exact ⟨rfl, by simp [semEvents, XmlEvent.skipped]⟩

/-- C4 witness: the flag-set branch applied at the `<f/>` example. -/
theorem deserialize_option_spec_witness :
    ∃ a : String, (some ("") : Option String) = some a :=
  deserialize_option_spec.1 String
    (Deserializer.deserialize_string (fun s => Except.ok s))
    (Deserializer.set_map_value
      ⟨0, [XmlEvent.StartElement ⟨"f", none⟩ [], XmlEvent.EndElement ⟨"f", none⟩],
        none, false⟩)
    (some ("")) ⟨0, [], none, false⟩ (by decide) (by decide)

-- ===== C7 =====

theorem consume_all_eq_of_next (d d2 : Deserializer)
    (h : Deserializer.next d = Deserializer.next d2) :
    consume_all d = consume_all d2 := by
  cases hn : d2.next with
  | ok e d1 => rw [consume_all_step _ _ _ (h.trans hn), consume_all_step _ _ _ hn]
  | err er d1 => rw [consume_all_err _ _ _ (h.trans hn), consume_all_err _ _ _ hn]
  | panics msg => rw [consume_all_panic _ _ (h.trans hn), consume_all_panic _ _ hn]

theorem consume_all_run (evs : List XmlEvent) : ∀ (dep : Nat) (m : Bool),
    consume_all ⟨dep, evs, none, m⟩
      = (match runDepth dep evs with
         | some dfin => Res.ok () ⟨dfin, [], none, m⟩
         | none => Res.panics underflowMsg) := by
  induction evs with
  | nil =>
    intro dep m
    rw [consume_all_err ⟨dep, [], none, m⟩ endOfStreamErr ⟨dep, [], none, m⟩ rfl]
    rfl
  | cons e es ih =>
    intro dep m
    cases e with
    | StartDocument =>
      rw [consume_all_eq_of_next _ _ (next_cons_skip dep XmlEvent.StartDocument es m rfl), ih]
      rfl
    | EndDocument =>
      rw [consume_all_eq_of_next _ _ (next_cons_skip dep XmlEvent.EndDocument es m rfl), ih]
      rfl
    | ProcessingInstruction =>
      rw [consume_all_eq_of_next _ _ (next_cons_skip dep XmlEvent.ProcessingInstruction es m rfl), ih]
      rfl
    | Comment t =>
      rw [consume_all_eq_of_next _ _ (next_cons_skip dep (XmlEvent.Comment t) es m rfl), ih]
      rfl
    | StartElement nm attrs =>
      rw [consume_all_step _ _ _ (next_cons_start dep nm attrs es m), ih]
      rfl
    | EndElement nm =>
      cases dep with
      | zero =>
        rw [consume_all_panic _ _ (next_end_underflow es m nm)]
        rfl
      | succ k =>
        rw [consume_all_step _ _ _ (next_cons_end k nm es m), ih]
        rfl
    | Characters s =>
      rw [consume_all_step _ _ _ (next_cons_chars dep s es m), ih]
      rfl

/-- C7: the depth counter increments by one on every consumed
`StartElement`, decrements by one on every consumed `EndElement` (which
presupposes it was positive), is unchanged by every other consumed event,
and, driving the cursor to the end of the stream, it ends at zero exactly
for balanced streams. -/
theorem depth_invariant_spec :
    (∀ (d : Deserializer) (e : XmlEvent) (d1 : Deserializer),
        d.next = Res.ok e d1 →
        ((∀ nm attrs, e = XmlEvent.StartElement nm attrs → d1.depth = d.depth + 1)
         ∧ (∀ nm, e = XmlEvent.EndElement nm → 0 < d.depth ∧ d1.depth = d.depth - 1)
         ∧ (e.structural = false → d1.depth = d.depth)))
    ∧ (∀ (evs : List XmlEvent) (m : Bool),
        (∃ d1, consume_all ⟨0, evs, none, m⟩ = Res.ok () d1 ∧ d1.depth = 0)
          ↔ balanced evs) := by
  constructor
  · intro d e d1 h
    obtain ⟨dep, evsx, pk, m⟩ := d
    cases pk with
    | some e0 =>
      cases e0 <;> simp only [Deserializer.next] at h
      case EndElement nm =>
        split at h
        · cases h
        · rename_i hz
          cases h
          refine ⟨?_, ?_, ?_⟩
          · intro nm2 attrs2 heq
            cases heq
          · intro nm2 heq
            simp at hz ⊢
            omega
          · intro hstr
            simp [XmlEvent.structural] at hstr
      case StartElement nm attrs =>
        cases h
        refine ⟨?_, ?_, ?_⟩
        · intro nm2 attrs2 heq
          rfl
        · intro nm2 heq
          cases heq
        · intro hstr
          simp [XmlEvent.structural] at hstr
      all_goals
        (cases h
         refine ⟨?_, ?_, ?_⟩
         · intro nm2 attrs2 heq
           cases heq
         · intro nm2 heq
           cases heq
         · intro hstr
           rfl)
    | none =>
      cases hl : innerNextList evsx with
      | none =>
        simp only [Deserializer.next, Deserializer.inner_next] at h
        rw [hl] at h
        cases h
      | some p =>
        obtain ⟨e2, es⟩ := p
        simp only [Deserializer.next, Deserializer.inner_next] at h
        rw [hl] at h
        cases e2 <;> simp only [] at h
        case EndElement nm =>
          split at h
          · cases h
          · rename_i hz
            cases h
            refine ⟨?_, ?_, ?_⟩
            · intro nm2 attrs2 heq
              cases heq
            · intro nm2 heq
              simp at hz ⊢
              omega
            · intro hstr
              simp [XmlEvent.structural] at hstr
        case StartElement nm attrs =>
          cases h
          refine ⟨?_, ?_, ?_⟩
          · intro nm2 attrs2 heq
            rfl
          · intro nm2 heq
            cases heq
          · intro hstr
            simp [XmlEvent.structural] at hstr
        all_goals
          (cases h
           refine ⟨?_, ?_, ?_⟩
           · intro nm2 attrs2 heq
             cases heq
           · intro nm2 heq
             cases heq
           · intro hstr
             rfl)
  · intro evs m
    rw [consume_all_run]
    constructor
    · rintro ⟨d1, hok, hdep⟩
      cases hr : runDepth 0 evs with
      | none =>
        rw [hr] at hok
        cases hok
      | some dfin =>
        rw [hr] at hok
        cases hok
        simpa [balanced, hr] using hdep
    · intro hb
      rw [show runDepth 0 evs = some 0 from hb]
      exact ⟨⟨0, [], none, m⟩, rfl, rfl⟩

/-- C7 witness: one concrete decrement with its positivity side
condition. -/
theorem depth_invariant_spec_witness :
    0 < (⟨1, [XmlEvent.EndElement ⟨"a", none⟩], none, false⟩ : Deserializer).depth
    ∧ (⟨0, [], none, false⟩ : Deserializer).depth
        = (⟨1, [XmlEvent.EndElement ⟨"a", none⟩], none, false⟩ : Deserializer).depth - 1 :=
  (depth_invariant_spec.1 ⟨1, [XmlEvent.EndElement ⟨"a", none⟩], none, false⟩
    (XmlEvent.EndElement ⟨"a", none⟩) ⟨0, [], none, false⟩
    (next_cons_end 0 ⟨"a", none⟩ [] false)).2.1 ⟨"a", none⟩ rfl

-- ===== C9 =====

/-- C9: the depth decrement in `next` has no zero guard: consuming an
`EndElement` at depth 0 underflows (panics), whether the event comes from
the stream or the lookahead buffer; with positive depth `next` never
panics; and `deserialize_ignored_any`, which consumes at least one event
before comparing depths, panics when invoked at depth 0 directly facing
the enclosing `EndElement`. -/
theorem depth_underflow_spec :
    (∀ (evs : List XmlEvent) (m : Bool) (nm : OwnedName),
        Deserializer.next ⟨0, XmlEvent.EndElement nm :: evs, none, m⟩
          = Res.panics underflowMsg
        ∧ Deserializer.next ⟨0, evs, some (XmlEvent.EndElement nm), m⟩
          = Res.panics underflowMsg)
    ∧ (∀ (d : Deserializer) (msg : String), 0 < d.depth →
        Deserializer.next d ≠ Res.panics msg)
    ∧ (∀ (α : Type) (vunit : Except Error α) (evs : List XmlEvent) (m : Bool)
        (nm : OwnedName),
        Deserializer.deserialize_ignored_any vunit
          ⟨0, XmlEvent.EndElement nm :: evs, none, m⟩
          = Res.panics underflowMsg) := by
  refine ⟨fun evs m nm => ⟨rfl, rfl⟩, ?_, ?_⟩
  · intro d msg hd hcontra
    obtain ⟨dep, evsx, pk, m⟩ := d
    simp only [Deserializer.depth] at hd
    cases pk with
    | some e0 =>
      cases e0 <;> simp only [Deserializer.next] at hcontra
      case EndElement nm =>
        split at hcontra
        · rename_i hz
          omega
        · cases hcontra
      all_goals cases hcontra
    | none =>
      cases hl : innerNextList evsx with
      | none =>
        simp only [Deserializer.next, Deserializer.inner_next] at hcontra
        rw [hl] at hcontra
        cases hcontra
      | some p =>
        obtain ⟨e2, es⟩ := p
        simp only [Deserializer.next, Deserializer.inner_next] at hcontra
        rw [hl] at hcontra
        cases e2 <;> simp only [] at hcontra
        case EndElement nm =>
          split at hcontra
          · rename_i hz
            omega
          · cases hcontra
        all_goals cases hcontra
  · intro α vunit evs m nm
    simp only [Deserializer.deserialize_ignored_any, Deserializer.unset_map_value]
    rw [skip_loop_panic 0 ⟨0, XmlEvent.EndElement nm :: evs, none, false⟩ _
      (next_end_underflow evs false nm)]

/-- C9 witness: the concrete underflowing ignored-field read. -/
theorem depth_underflow_spec_witness :
    Deserializer.deserialize_ignored_any (Except.ok ())
      ⟨0, [XmlEvent.EndElement ⟨"a", none⟩], none, false⟩
      = Res.panics underflowMsg :=
  depth_underflow_spec.2.2 Unit (Except.ok ()) [] false ⟨"a", none⟩

-- ===== flag-preservation helpers =====

theorem next_flag (d : Deserializer) (e : XmlEvent) (d1 : Deserializer)
    (h : d.next = Res.ok e d1) : d1.is_map_value = d.is_map_value := by
  obtain ⟨dep, evsx, pk, m⟩ := d
  cases pk with
  | some e0 =>
    cases e0 <;> simp only [Deserializer.next] at h
    case EndElement nm =>
      split at h
      · cases h
      · cases h
        rfl
    all_goals (cases h; rfl)
  | none =>
    cases hl : innerNextList evsx with
    | none =>
      simp only [Deserializer.next, Deserializer.inner_next] at h
      rw [hl] at h
      cases h
    | some p =>
      obtain ⟨e2, es⟩ := p
      simp only [Deserializer.next, Deserializer.inner_next] at h
      rw [hl] at h
      cases e2 <;> simp only [] at h
      case EndElement nm =>
        split at h
        · cases h
        · cases h
          rfl
      all_goals (cases h; rfl)

theorem peek_flag (d : Deserializer) (e : XmlEvent) (d1 : Deserializer)
    (h : d.peek = Res.ok e d1) : d1.is_map_value = d.is_map_value := by
  obtain ⟨dep, evsx, pk, m⟩ := d
  cases pk with
  | some e0 =>
    simp only [Deserializer.peek] at h
    cases h
    rfl
  | none =>
    cases hl : innerNextList evsx with
    | none =>
      simp only [Deserializer.peek] at h
      rw [hl] at h
      cases h
    | some p =>
      obtain ⟨e2, es⟩ := p
      simp only [Deserializer.peek] at h
      rw [hl] at h
      cases h
      rfl

theorem expect_end_flag (d : Deserializer) (nm : OwnedName) (u : Unit)
    (d1 : Deserializer) (h : d.expect_end_element nm = Res.ok u d1) :
    d1.is_map_value = d.is_map_value := by
  simp only [Deserializer.expect_end_element] at h
  split at h
  · rename_i nm2 d2 heq
    split at h
    · cases h
      exact next_flag _ _ _ heq
    · cases h
  · cases h
  · cases h
  · cases h

theorem read_string_inner_flag (α : Type) (vis : String → Except Error α)
    (d : Deserializer) (a : α) (d1 : Deserializer)
    (h : Deserializer.read_string_inner vis d = Res.ok a d1) :
    d1.is_map_value = d.is_map_value := by
  simp only [Deserializer.read_string_inner] at h
  split at h
  · rename_i nm2 d2 heq
    split at h
    · cases h
      exact peek_flag _ _ _ heq
    · cases h
  · rename_i e2 d2 hne heq
    split at h
    · rename_i s2 d3 heq2
      split at h
      · cases h
        exact (next_flag _ _ _ heq2).trans (peek_flag _ _ _ heq)
      · cases h
    · cases h
    · cases h
    · cases h
  · cases h
  · cases h

theorem read_inner_value_flag (α : Type) (f : Deserializer → Res α)
    (hf : ∀ (d2 : Deserializer) (a : α) (d3 : Deserializer),
        d2.is_map_value = false → f d2 = Res.ok a d3 → d3.is_map_value = false)
    (d : Deserializer) (a : α) (d1 : Deserializer)
    (h : d.read_inner_value f = Res.ok a d1) : d1.is_map_value = false := by
  simp only [Deserializer.read_inner_value, Deserializer.unset_map_value] at h
  by_cases hm : d.is_map_value
  · rw [if_pos hm] at h
    split at h
    · rename_i nm2 d2 heq
      split at h
      · rename_i v2 d3 hfeq
        have hd2 : d2.is_map_value = false := by
          simpa using next_flag _ _ _ heq
        have hd3 : d3.is_map_value = false := hf d2 v2 d3 hd2 hfeq
        split at h
        · rename_i u d4 hexp
          cases h
          exact (expect_end_flag _ _ _ _ hexp).trans hd3
        · cases h
        · cases h
      · cases h
      · cases h
    · cases h
  · rw [if_neg hm] at h
    exact hf _ _ _ (by simpa using hm) h

theorem skip_loop_flag_aux :
    ∀ (N t : Nat) (d : Deserializer) (a : Unit) (d1 : Deserializer),
      dmeasure d ≤ N → skip_loop t d = Res.ok a d1 →
      d1.is_map_value = d.is_map_value := by
  intro N
  induction N with
  | zero =>
    intro t d a d1 hm h
    rw [skip_loop.eq_def] at h
    split at h
    · rename_i e d2 heq
      exact absurd (nextShrinks _ _ _ heq) (by omega)
    · cases h
    · cases h
  | succ k ih =>
    intro t d a d1 hm h
    rw [skip_loop.eq_def] at h
    split at h
    · rename_i e d2 heq
      have hlt := nextShrinks _ _ _ heq
      split at h
      · cases h
        exact next_flag _ _ _ heq
      · exact (ih t d2 a d1 (by omega) h).trans (next_flag _ _ _ heq)
    · cases h
    · cases h

theorem skip_loop_flag (t : Nat) (d : Deserializer) (a : Unit) (d1 : Deserializer)
    (h : skip_loop t d = Res.ok a d1) : d1.is_map_value = d.is_map_value :=
  skip_loop_flag_aux (dmeasure d) t d a d1 (Nat.le_refl _) h

example : True := trivial

theorem deserialize_string_flag (α : Type) (vis : String → Except Error α)
    (d : Deserializer) (a : α) (d1 : Deserializer)
    (h : Deserializer.deserialize_string vis d = Res.ok a d1) :
    d1.is_map_value = false :=
  read_inner_value_flag α (Deserializer.read_string_inner vis)
    (fun d2 a2 d3 hm2 hsi => (read_string_inner_flag α vis d2 a2 d3 hsi).trans hm2)
    d a d1 h

theorem deserialize_unit_flag (α : Type) (vunit : Except Error α)
    (d : Deserializer) (a : α) (d1 : Deserializer)
    (h : Deserializer.deserialize_unit vunit d = Res.ok a d1) :
    d1.is_map_value = false := by
  refine read_inner_value_flag α _ ?_ d a d1 h
  intro d2 a2 d3 hm2 hin
  split at hin
  · rename_i nm2 d4 heq
    split at hin
    · cases hin
      exact (peek_flag _ _ _ heq).trans hm2
    · cases hin
  · cases hin
  · cases hin
  · cases hin

theorem deserialize_map_flag (α : Type)
    (vmap : List OwnedAttribute → Bool → Deserializer → Res α)
    (hv : ∀ (attrs : List OwnedAttribute) (b : Bool), FlagPreserving (vmap attrs b))
    (d : Deserializer) (a : α) (d1 : Deserializer)
    (h : Deserializer.deserialize_map vmap d = Res.ok a d1) :
    d1.is_map_value = false := by
  simp only [Deserializer.deserialize_map, Deserializer.unset_map_value] at h
  split at h
  · rename_i nm2 attrs2 d2 heq
    have hd2 : d2.is_map_value = false := by
      simpa using next_flag _ _ _ heq
    split at h
    · rename_i v2 d3 hveq
      have hd3 : d3.is_map_value = false := hv attrs2 false d2 v2 d3 hd2 hveq
      split at h
      · rename_i u d4 hexp
        cases h
        exact (expect_end_flag _ _ _ _ hexp).trans hd3
      · cases h
      · cases h
    · cases h
    · cases h
  · cases h
  · cases h
  · cases h

theorem deserialize_struct_flag (α : Type) (fields : List String)
    (vmap : List OwnedAttribute → Bool → Deserializer → Res α)
    (hv : ∀ (attrs : List OwnedAttribute) (b : Bool), FlagPreserving (vmap attrs b))
    (d : Deserializer) (a : α) (d1 : Deserializer)
    (h : Deserializer.deserialize_struct fields vmap d = Res.ok a d1) :
    d1.is_map_value = false := by
  simp only [Deserializer.deserialize_struct, Deserializer.unset_map_value] at h
  split at h
  · rename_i nm2 attrs2 d2 heq
    have hd2 : d2.is_map_value = false := by
      simpa using next_flag _ _ _ heq
    split at h
    · rename_i v2 d3 hveq
      have hd3 : d3.is_map_value = false :=
        hv attrs2 (fields.contains valueFieldName) d2 v2 d3 hd2 hveq
      split at h
      · rename_i u d4 hexp
        cases h
        exact (expect_end_flag _ _ _ _ hexp).trans hd3
      · cases h
      · cases h
    · cases h
    · cases h
  · cases h
  · cases h
  · cases h

theorem seqVisitorNewState_flag (d : Deserializer) (nm : Option OwnedName)
    (d1 : Deserializer) (h : Deserializer.seqVisitorNewState d = Res.ok nm d1) :
    d1.is_map_value = false := by
  simp only [Deserializer.seqVisitorNewState, Deserializer.unset_map_value] at h
  by_cases hm : d.is_map_value
  · rw [if_pos hm] at h
    split at h
    · rename_i nm2 attrs2 d2 heq
      cases h
      simpa using peek_flag _ _ _ heq
    · cases h
  · rw [if_neg hm] at h
    cases h
    rfl

theorem deserialize_seq_flag (α : Type)
    (vseq : Option OwnedName → Deserializer → Res α)
    (hv : ∀ nm, FlagPreserving (vseq nm))
    (d : Deserializer) (a : α) (d1 : Deserializer)
    (h : Deserializer.deserialize_seq vseq d = Res.ok a d1) :
    d1.is_map_value = false := by
  simp only [Deserializer.deserialize_seq] at h
  split at h
  · rename_i nm2 d2 heq
    exact hv nm2 d2 a d1 (seqVisitorNewState_flag d nm2 d2 heq) h
  · cases h
  · cases h

example : True := trivial

-- ===== C10 =====

/-- C10: the map-value flag is one-shot and never leaks across requests:
every deserialize entry point, given visitor callbacks that themselves
maintain the invariant, hands the deserializer back with
`is_map_value = false` on every successful return — each path either
clears the flag directly or routes through `read_inner_value`, which
consumes it before decoding. -/
theorem deserialize_entry_points_clear_flag :
    (∀ (α : Type) (vis : String → Except Error α) (d : Deserializer) (a : α)
        (d1 : Deserializer),
        (Deserializer.deserialize_string vis d = Res.ok a d1 → d1.is_map_value = false)
        ∧ (Deserializer.deserialize_u64 vis d = Res.ok a d1 → d1.is_map_value = false)
        ∧ (Deserializer.deserialize_u32 vis d = Res.ok a d1 → d1.is_map_value = false)
        ∧ (Deserializer.deserialize_u16 vis d = Res.ok a d1 → d1.is_map_value = false)
        ∧ (Deserializer.deserialize_u8 vis d = Res.ok a d1 → d1.is_map_value = false)
        ∧ (Deserializer.deserialize_i64 vis d = Res.ok a d1 → d1.is_map_value = false)
        ∧ (Deserializer.deserialize_i32 vis d = Res.ok a d1 → d1.is_map_value = false)
        ∧ (Deserializer.deserialize_i16 vis d = Res.ok a d1 → d1.is_map_value = false)
        ∧ (Deserializer.deserialize_i8 vis d = Res.ok a d1 → d1.is_map_value = false)
        ∧ (Deserializer.deserialize_f64 vis d = Res.ok a d1 → d1.is_map_value = false)
        ∧ (Deserializer.deserialize_f32 vis d = Res.ok a d1 → d1.is_map_value = false)
        ∧ (Deserializer.deserialize_bool vis d = Res.ok a d1 → d1.is_map_value = false)
        ∧ (Deserializer.deserialize_char vis d = Res.ok a d1 → d1.is_map_value = false)
        ∧ (Deserializer.deserialize_str vis d = Res.ok a d1 → d1.is_map_value = false)
        ∧ (Deserializer.deserialize_bytes vis d = Res.ok a d1 → d1.is_map_value = false)
        ∧ (Deserializer.deserialize_byte_buf vis d = Res.ok a d1 → d1.is_map_value = false))
    ∧ (∀ (α : Type) (vunit : Except Error α) (d : Deserializer) (a : α)
        (d1 : Deserializer),
        (Deserializer.deserialize_unit vunit d = Res.ok a d1 → d1.is_map_value = false)
        ∧ (Deserializer.deserialize_unit_struct vunit d = Res.ok a d1 →
            d1.is_map_value = false)
        ∧ (Deserializer.deserialize_ignored_any vunit d = Res.ok a d1 →
            d1.is_map_value = false))
    ∧ (∀ (α : Type) (pay : Deserializer → Res α), FlagPreserving pay →
        ∀ (d : Deserializer) (v : Option α) (d1 : Deserializer),
        Deserializer.deserialize_option pay d = Res.ok v d1 → d1.is_map_value = false)
    ∧ (∀ (α : Type) (fields : List String)
        (vmap : List OwnedAttribute → Bool → Deserializer → Res α),
        (∀ attrs b, FlagPreserving (vmap attrs b)) →
        ∀ (d : Deserializer) (a : α) (d1 : Deserializer),
        (Deserializer.deserialize_struct fields vmap d = Res.ok a d1 →
            d1.is_map_value = false)
        ∧ (Deserializer.deserialize_map vmap d = Res.ok a d1 → d1.is_map_value = false))
    ∧ (∀ (α : Type) (venum : Deserializer → Res α), FlagPreserving venum →
        ∀ (d : Deserializer) (a : α) (d1 : Deserializer),
        Deserializer.deserialize_enum venum d = Res.ok a d1 → d1.is_map_value = false)
    ∧ (∀ (α : Type) (len : Nat) (vseq : Option OwnedName → Deserializer → Res α),
        (∀ nm, FlagPreserving (vseq nm)) →
        ∀ (d : Deserializer) (a : α) (d1 : Deserializer),
        (Deserializer.deserialize_seq vseq d = Res.ok a d1 → d1.is_map_value = false)
        ∧ (Deserializer.deserialize_seq_fixed_size len vseq d = Res.ok a d1 →
            d1.is_map_value = false)
        ∧ (Deserializer.deserialize_tuple len vseq d = Res.ok a d1 →
            d1.is_map_value = false)
        ∧ (Deserializer.deserialize_tuple_struct len vseq d = Res.ok a d1 →
            d1.is_map_value = false))
    ∧ (∀ (α : Type) (vmap : List OwnedAttribute → Bool → Deserializer → Res α)
        (vunit : Except Error α) (vis : String → Except Error α),
        (∀ attrs b, FlagPreserving (vmap attrs b)) →
        ∀ (d : Deserializer) (a : α) (d1 : Deserializer),
        Deserializer.deserialize vmap vunit vis d = Res.ok a d1 →
        d1.is_map_value = false) := by
  have hign : ∀ (α : Type) (vunit : Except Error α) (d : Deserializer) (a : α)
      (d1 : Deserializer),
      Deserializer.deserialize_ignored_any vunit d = Res.ok a d1 →
      d1.is_map_value = false := by
    intro α vunit d a d1 h
    simp only [Deserializer.deserialize_ignored_any, Deserializer.unset_map_value] at h
    split at h
    · rename_i u d2 heq
      have hd2 : d2.is_map_value = false := by
        simpa using skip_loop_flag _ _ _ _ heq
      split at h
      · cases h
        exact hd2
      · cases h
    · cases h
    · cases h
  refine ⟨?_, ?_, ?_, ?_, ?_, ?_, ?_⟩
  · intro α vis d a d1
    exact ⟨deserialize_string_flag α vis d a d1, deserialize_string_flag α vis d a d1,
      deserialize_string_flag α vis d a d1, deserialize_string_flag α vis d a d1,
      deserialize_string_flag α vis d a d1, deserialize_string_flag α vis d a d1,
      deserialize_string_flag α vis d a d1, deserialize_string_flag α vis d a d1,
      deserialize_string_flag α vis d a d1, deserialize_string_flag α vis d a d1,
      deserialize_string_flag α vis d a d1, deserialize_string_flag α vis d a d1,
      deserialize_string_flag α vis d a d1, deserialize_string_flag α vis d a d1,
      deserialize_string_flag α vis d a d1, deserialize_string_flag α vis d a d1⟩
  · intro α vunit d a d1
    exact ⟨deserialize_unit_flag α vunit d a d1, deserialize_unit_flag α vunit d a d1,
      hign α vunit d a d1⟩
  · intro α pay hpay d v d1 h
    by_cases hm : d.is_map_value
    · simp only [Deserializer.deserialize_option, hm, if_true] at h
      refine read_inner_value_flag (Option α) _ ?_ d v d1 h
      intro d2 a2 d3 hm2 hin
      cases hp : pay d2 with
      | ok a4 d4 =>
        simp only [hp] at hin
        cases hin
        exact hpay _ _ _ hm2 hp
      | err er d4 =>
        simp only [hp] at hin
        cases hin
      | panics msg =>
        simp only [hp] at hin
        cases hin
    · have hdm : d.is_map_value = false := by simpa using hm
      simp only [Deserializer.deserialize_option, hdm, Bool.false_eq_true,
        if_false] at h
      cases hpk : d.peek with
      | ok e2 d2 =>
        cases e2 <;>
          first
          | (simp only [hpk] at h
             cases h
             exact (peek_flag _ _ _ hpk).trans hdm)
          | (simp only [hpk] at h
             cases hp : pay d2 with
             | ok a4 d4 =>
               simp only [hp] at h
               cases h
               exact hpay _ _ _ ((peek_flag _ _ _ hpk).trans hdm) hp
             | err er d4 =>
               simp only [hp] at h
               cases h
             | panics msg =>
               simp only [hp] at h
               cases h)
      | err er d2 =>
        simp only [hpk] at h
        cases h
      | panics msg =>
        simp only [hpk] at h
        cases h
  · intro α fields vmap hv d a d1
    exact ⟨deserialize_struct_flag α fields vmap hv d a d1,
      deserialize_map_flag α vmap hv d a d1⟩
  · intro α venum hv d a d1 h
    exact read_inner_value_flag α venum
      (fun d2 a2 d3 hm2 hv2 => hv d2 a2 d3 hm2 hv2) d a d1 h
  · intro α len vseq hv d a d1
    exact ⟨deserialize_seq_flag α vseq hv d a d1, deserialize_seq_flag α vseq hv d a d1,
      deserialize_seq_flag α vseq hv d a d1, deserialize_seq_flag α vseq hv d a d1⟩
  · intro α vmap vunit vis hv d a d1 h
    simp only [Deserializer.deserialize] at h
    split at h
    · exact deserialize_map_flag α vmap hv _ a d1 h
    · exact deserialize_unit_flag α vunit _ a d1 h
    · exact deserialize_string_flag α vis _ a d1 h
    · cases h
    · cases h

/-- C10 witness: a concrete scalar read ends with the flag clear. -/
theorem deserialize_entry_points_clear_flag_witness :
    (⟨0, [], none, false⟩ : Deserializer).is_map_value = false :=
  (deserialize_entry_points_clear_flag.1 String (fun s => Except.ok s)
    ⟨0, [XmlEvent.Characters ("q")], none, false⟩ "q" ⟨0, [], none, false⟩).1
    (by decide)
